import Mathlib

/-!
Shallow embedding of the GCAM land-allocator leaf
(`src/cvs/objects/land_allocator/source/land_leaf.cpp`, class `LandLeaf`)
together with the external collaborators its methods consume: the discrete
choice function, the per-leaf carbon content calculator, the model time
metadata and the marketplace.  C++ doubles are modelled as rationals; the
per-period member arrays of the leaf are modelled as functions from the
period index; a fatal `exit(-1)` is modelled as `Except.error`.
-/

/-- External discrete choice function (`IDiscreteChoice`): the leaf calls it
and never implements it.  Arguments follow the C++ call sites:
`calcUnnormalizedShare(scaler, profitRate, period)`,
`calcImpliedCost(share, averageProfitRateAbove, period)`,
`calcShareWeight(share, profitRate, period)`. -/
structure IDiscreteChoice where
  calcUnnormalizedShare : ℚ → ℚ → ℕ → ℚ
  calcImpliedCost : ℚ → ℚ → ℕ → ℚ
  calcShareWeight : ℚ → ℚ → ℕ → ℚ

/-- External carbon content calculator (`ICarbonCalc`) owned by a leaf,
restricted to the accessors `LandLeaf` uses.  The field
`calcThenGetNetLandUseChangeEmission aPeriod aEndYear year` stands for the
value of `getNetLandUseChangeEmission(year)` right after
`calc(aPeriod, aEndYear)` has run. -/
structure ICarbonCalc where
  getActualAboveGroundCarbonDensity : ℤ → ℚ
  getActualBelowGroundCarbonDensity : ℤ → ℚ
  getAboveGroundCarbonSubsidyDiscountFactor : ℚ
  getBelowGroundCarbonSubsidyDiscountFactor : ℚ
  calcThenGetNetLandUseChangeEmission : ℕ → ℤ → ℤ → ℚ

/-- Model time metadata (`Modeltime`), restricted to the accessors
`LandLeaf` uses. -/
structure Modeltime where
  getmaxper : ℕ
  getper_to_yr : ℕ → ℤ
  getyr_to_per : ℤ → ℕ

/-- Marketplace snapshot.  `getPriceOpt` is the four-argument
`getPrice(name, region, period, false)`: `Option.none` stands for the
`NO_MARKET_PRICE` sentinel.  `getPriceMust` is the three-argument must-exist
form.  `demand` is the running total demand per market and period. -/
structure Marketplace where
  getPriceOpt : String → ℕ → Option ℚ
  getPriceMust : String → ℕ → ℚ
  demand : String → ℕ → ℚ

/-- Modelled from the spec: the repository's `Marketplace::addToDemand` is
not among the source files.  Per the Market Coupling Protocol of the spec,
a call adjusts the market's running total demand by
`newValue - previousContribution` and returns the value the caller must
store as its previous contribution for the next call. -/
def Marketplace.addToDemand (mkt : Marketplace) (aName : String) (aPeriod : ℕ)
    (aNewValue aPrev : ℚ) : Marketplace × ℚ :=
  ({ mkt with demand := fun n p =>
      if n = aName ∧ p = aPeriod then mkt.demand n p + (aNewValue - aPrev)
      else mkt.demand n p },
   aNewValue)

/-- State of one `LandLeaf`.  Per-period `objects::PeriodVector` members are
functions from the period index; names follow the C++ members. -/
structure LandLeaf where
  mLandAllocation : ℕ → ℚ
  mShare : ℕ → ℚ
  mProfitRate : ℕ → ℚ
  mProfitScaler : ℕ → ℚ
  mCalibrationProfitRate : ℕ → ℚ
  mCarbonPriceIncreaseRate : ℕ → ℚ
  mReadinLandAllocation : ℕ → ℚ
  mLastCalcCO2Value : ℚ
  mLastCalcExpansionValue : ℚ
  mIsNewTech : Bool
  mIsLandExpansionCost : Bool
  mGhostShareNumeratorForLeaf : ℚ
  mNewTechStartYear : ℤ
  mMinAboveGroundCDensity : ℚ
  mMinBelowGroundCDensity : ℚ
  mSocialDiscountRate : ℚ
  mLandExpansionCostName : String

/-- The 1975-to-1990 dollar conversion constant of
`LandLeaf::getCarbonSubsidy` (`dollar_conversion_75_90 = 2.212`). -/
def dollarConversion7590 : ℚ := 2212 / 1000

/-- `LandLeaf::getCarbonSubsidy` (land_leaf.cpp lines 401-437): the subsidy
is computed only when the `CO2_LUC` price exists and is positive; otherwise
the function returns 0. -/
def LandLeaf.getCarbonSubsidy (s : LandLeaf) (mkt : Marketplace)
    (cc : ICarbonCalc) (mt : Modeltime) (aPeriod : ℕ) : ℚ :=
  match mkt.getPriceOpt "CO2_LUC" aPeriod with
  | Option.none => 0
  | Option.some cp =>
    if 0 < cp then
      let carbonPrice := cp / dollarConversion7590
      let conversionFactor : ℚ := 1000000
      let year := mt.getper_to_yr aPeriod
      let incrementalAboveCDensity :=
        cc.getActualAboveGroundCarbonDensity year - s.mMinAboveGroundCDensity
      let incrementalBelowCDensity :=
        cc.getActualBelowGroundCarbonDensity year - s.mMinBelowGroundCDensity
      (incrementalAboveCDensity * cc.getAboveGroundCarbonSubsidyDiscountFactor
        + incrementalBelowCDensity * cc.getBelowGroundCarbonSubsidyDiscountFactor)
        * carbonPrice * (s.mSocialDiscountRate - s.mCarbonPriceIncreaseRate aPeriod)
        * conversionFactor
    else 0

/-- `LandLeaf::setProfitRate` (lines 374-390): subtract the expansion-cost
market price when the leaf is flagged with a land-expansion cost, add the
carbon subsidy, floor at 0, and store into `mProfitRate[aPeriod]`. -/
def LandLeaf.setProfitRate (s : LandLeaf) (mkt : Marketplace)
    (cc : ICarbonCalc) (mt : Modeltime) (aProfitRate : ℚ) (aPeriod : ℕ) :
    LandLeaf :=
  let adjustedProfitRate :=
    if s.mIsLandExpansionCost then
      aProfitRate - mkt.getPriceMust s.mLandExpansionCostName aPeriod
    else aProfitRate
  let newRate := max (adjustedProfitRate + s.getCarbonSubsidy mkt cc mt aPeriod) 0
  { s with mProfitRate := Function.update s.mProfitRate aPeriod newRate }

/-- `LandLeaf::calcLandShares` (lines 502-515): returns the unnormalized
share obtained from the choice function, with the scaler argument forced to
0 when the stored profit rate is nonpositive; the member state is untouched
(the body performs no assignment), which the returned state records. -/
def LandLeaf.calcLandShares (s : LandLeaf) (dc : IDiscreteChoice)
    (aPeriod : ℕ) : ℚ × LandLeaf :=
  (dc.calcUnnormalizedShare
      (if s.mProfitRate aPeriod ≤ 0 then 0 else s.mProfitScaler aPeriod)
      (s.mProfitRate aPeriod) aPeriod,
   s)

/-- `LandLeaf::calculateProfitScalers` (lines 523-564).
`parentCalibrationProfitForNewTech` stands for
`getParent()->getCalibrationProfitForNewTech`.  The returned boolean records
whether the negative-scaler warning was logged (the clamp branch). -/
def LandLeaf.calculateProfitScalers (s : LandLeaf) (dc : IDiscreteChoice)
    (mt : Modeltime) (parentCalibrationProfitForNewTech : ℕ → ℚ)
    (aPeriod : ℕ) : LandLeaf × Bool :=
  let newCalRates :=
    if s.mIsNewTech then
      Function.update s.mCalibrationProfitRate aPeriod
        (parentCalibrationProfitForNewTech aPeriod)
    else s.mCalibrationProfitRate
  let preScaler :=
    if s.mIsNewTech then
      Function.update (Function.update s.mProfitScaler aPeriod 0)
        (mt.getyr_to_per s.mNewTechStartYear)
        (dc.calcShareWeight s.mGhostShareNumeratorForLeaf
          (parentCalibrationProfitForNewTech aPeriod) aPeriod)
    else if s.mCalibrationProfitRate aPeriod = 0 ∨ s.mProfitRate aPeriod = 0 then
      Function.update s.mProfitScaler aPeriod 0
    else
      Function.update s.mProfitScaler aPeriod
        (dc.calcShareWeight (s.mShare aPeriod) (s.mProfitRate aPeriod) aPeriod)
  if preScaler aPeriod < 0 then
    ({ s with mCalibrationProfitRate := newCalRates,
              mProfitScaler := Function.update preScaler aPeriod 0 }, true)
  else
    ({ s with mCalibrationProfitRate := newCalRates,
              mProfitScaler := preScaler }, false)

/-- `LandLeaf::initCalc` (lines 243-283): for periods after the first, copy
the previous period's profit scaler and share over the -1 sentinels; then,
in every period, a profit scaler still equal to -1 is a fatal error
(`exit(-1)` in the source, `Except.error` here). -/
def LandLeaf.initCalc (s : LandLeaf) (aPeriod : ℕ) : Except String LandLeaf :=
  let newScaler :=
    if 1 < aPeriod ∧ s.mProfitScaler aPeriod = -1 then
      Function.update s.mProfitScaler aPeriod (s.mProfitScaler (aPeriod - 1))
    else s.mProfitScaler
  let newShare :=
    if 1 < aPeriod ∧ s.mShare aPeriod = -1 then
      Function.update s.mShare aPeriod (s.mShare (aPeriod - 1))
    else s.mShare
  if newScaler aPeriod = -1 then
    Except.error "Negative share weight"
  else
    Except.ok { s with mProfitScaler := newScaler, mShare := newShare }

/-- `LandLeaf::calcLandAllocation` (lines 581-605): land allocation is the
parent allocation times the share when the parent allocation is positive and
0 otherwise; a leaf flagged with a land-expansion cost then reports its
allocation as demand to the expansion-cost market. -/
def LandLeaf.calcLandAllocation (s : LandLeaf) (mkt : Marketplace)
    (aLandAllocationAbove : ℚ) (aPeriod : ℕ) : Marketplace × LandLeaf :=
  let newAllocValue :=
    if 0 < aLandAllocationAbove then aLandAllocationAbove * s.mShare aPeriod else 0
  let s1 := { s with
    mLandAllocation := Function.update s.mLandAllocation aPeriod newAllocValue }
  if s1.mIsLandExpansionCost then
    let r := mkt.addToDemand s1.mLandExpansionCostName aPeriod
      (s1.mLandAllocation aPeriod) s1.mLastCalcExpansionValue
    (r.1, { s1 with mLastCalcExpansionValue := r.2 })
  else
    (mkt, s1)

/-- Modelled from the spec: the per-period driver (the land allocator that
owns the leaves) is not among the source files.  Per spec 4.3/4.4 and the
comment inside `LandLeaf::initCalc`, in each period the calibration pass
(`calculateProfitScalers`) runs for the calibration periods before the
leaf's `initCalc` of that period runs. -/
def calibThenInitStep (dc : IDiscreteChoice) (mt : Modeltime) (pcp : ℕ → ℚ)
    (finalCalPeriod : ℕ) (s : LandLeaf) (aPeriod : ℕ) : Except String LandLeaf :=
  let s1 :=
    if aPeriod ≤ finalCalPeriod then
      (s.calculateProfitScalers dc mt pcp aPeriod).1
    else s
  s1.initCalc aPeriod

/-- Runs `calibThenInitStep` for periods `0, 1, ..., k-1` in order, stopping
at the first fatal error. -/
def runPeriodsUpTo (dc : IDiscreteChoice) (mt : Modeltime) (pcp : ℕ → ℚ)
    (finalCalPeriod : ℕ) (s : LandLeaf) : ℕ → Except String LandLeaf
  | 0 => Except.ok s
  | k + 1 =>
    match runPeriodsUpTo dc mt pcp finalCalPeriod s k with
    | Except.error e => Except.error e
    | Except.ok sk => calibThenInitStep dc mt pcp finalCalPeriod sk k

/-- `LandLeaf::calcLUCEmissions` (lines 613-628): the carbon calculator is
run up to `aEndYear`; the net land-use-change emission is pushed to the
`CO2_LUC` market exactly when `aEndYear` differs from the carbon model's end
year (`CarbonModelUtils::getEndYear()`, passed here as `carbonEndYear`) or
the period is the model's last period. -/
def LandLeaf.calcLUCEmissions (s : LandLeaf) (cc : ICarbonCalc)
    (mt : Modeltime) (carbonEndYear : ℤ) (mkt : Marketplace)
    (aPeriod : ℕ) (aEndYear : ℤ) : Marketplace × LandLeaf :=
  if aEndYear ≠ carbonEndYear ∨ aPeriod = mt.getmaxper - 1 then
    let lucEmissions :=
      cc.calcThenGetNetLandUseChangeEmission aPeriod aEndYear
        (mt.getper_to_yr aPeriod)
    let r := mkt.addToDemand "CO2_LUC" aPeriod lucEmissions s.mLastCalcCO2Value
    (r.1, { s with mLastCalcCO2Value := r.2 })
  else
    (mkt, s)

/-! ### Concrete sample collaborators, used by the closed evaluation theorems -/

/-- A sample discrete choice function satisfying the contract that a zero
scaler forces a zero weight. -/
def sampleChoice : IDiscreteChoice where
  calcUnnormalizedShare := fun w r _ => w * (1 + r)
  calcImpliedCost := fun _ a _ => a
  calcShareWeight := fun sh r _ => sh + r

/-- A sample model time: 6 periods, 5-year steps starting 1975. -/
def sampleModeltime : Modeltime where
  getmaxper := 6
  getper_to_yr := fun p => 1975 + 5 * (p : ℤ)
  getyr_to_per := fun _ => 4

/-- A sample carbon calculator with constant densities and factors. -/
def sampleCarbonCalc : ICarbonCalc where
  getActualAboveGroundCarbonDensity := fun _ => 3
  getActualBelowGroundCarbonDensity := fun _ => 3
  getAboveGroundCarbonSubsidyDiscountFactor := 1 / 2
  getBelowGroundCarbonSubsidyDiscountFactor := 1 / 2
  calcThenGetNetLandUseChangeEmission := fun _ _ _ => 1

/-- A marketplace with no carbon market (the `NO_MARKET_PRICE` case). -/
def mktNoCarbon : Marketplace where
  getPriceOpt := fun _ _ => Option.none
  getPriceMust := fun _ _ => 2
  demand := fun _ _ => 0

/-- A marketplace whose `CO2_LUC` price is the positive constant 10. -/
def mktCarbon10 : Marketplace where
  getPriceOpt := fun _ _ => Option.some 10
  getPriceMust := fun _ _ => 2
  demand := fun _ _ => 0

/-- A marketplace whose `CO2_LUC` price is the nonpositive constant -3. -/
def mktCarbonNeg : Marketplace where
  getPriceOpt := fun _ _ => Option.some (-3)
  getPriceMust := fun _ _ => 2
  demand := fun _ _ => 0

/-- A sample leaf used as the base of the concrete evaluations. -/
def baseLeaf : LandLeaf where
  mLandAllocation := fun _ => 0
  mShare := fun _ => 1 / 2
  mProfitRate := fun _ => 3
  mProfitScaler := fun _ => 2
  mCalibrationProfitRate := fun _ => 4
  mCarbonPriceIncreaseRate := fun _ => 0
  mReadinLandAllocation := fun _ => 0
  mLastCalcCO2Value := 0
  mLastCalcExpansionValue := 0
  mIsNewTech := false
  mIsLandExpansionCost := false
  mGhostShareNumeratorForLeaf := 1 / 4
  mNewTechStartYear := 2020
  mMinAboveGroundCDensity := 1
  mMinBelowGroundCDensity := 1
  mSocialDiscountRate := 1 / 20
  mLandExpansionCostName := "crop-expansion"

/-- A leaf whose stored profit rate is negative in every period. -/
def negProfitLeaf : LandLeaf := { baseLeaf with mProfitRate := fun _ => -2 }

/-- A leaf whose period-2 scaler and share hold the -1 sentinel. -/
def sentinelLeaf : LandLeaf :=
  { baseLeaf with
    mProfitScaler := fun q => if q = 2 then -1 else 5,
    mShare := fun q => if q = 2 then -1 else 1 / 3 }
/-- A leaf whose configured minimum densities exceed the actual densities of
`sampleCarbonCalc`, driving the computed subsidy negative. -/
def belowMinLeaf : LandLeaf :=
  { baseLeaf with mMinAboveGroundCDensity := 5, mMinBelowGroundCDensity := 5 }
/-- An entrant leaf: scalers all at the sentinel, flagged as new
technology. -/
def newTechLeaf : LandLeaf :=
  { baseLeaf with mIsNewTech := true, mProfitScaler := fun _ => -1 }

/-! ### Claim theorems -/

/-- Claim C2: whenever `profitRate[p] <= 0`, `calcLandShares` passes an
effective scaler of 0 to `calcUnnormalizedShare`, so under the choice
function contract that a zero scaler forces a zero weight the returned
unnormalized weight is 0, regardless of the calibrated profit scaler. -/
theorem calcLandShares_zero_weight_of_nonpositive_profit
    (dc : IDiscreteChoice) (s : LandLeaf) (p : ℕ)
    (hContract : ∀ r q, dc.calcUnnormalizedShare 0 r q = 0)
    (hProfit : s.mProfitRate p ≤ 0) :
    (s.calcLandShares dc p).1 = 0 := by
  simp [LandLeaf.calcLandShares, if_pos hProfit, hContract]

/-- Witness for C2 at a concrete leaf with profit rate -2 and scaler 2. -/
theorem calcLandShares_zero_weight_witness :
    (negProfitLeaf.calcLandShares sampleChoice 1).1 = 0 :=
  calcLandShares_zero_weight_of_nonpositive_profit sampleChoice negProfitLeaf 1
    (fun r q => by simp [sampleChoice])
    (by norm_num [negProfitLeaf, baseLeaf])

/-- Claim C6: after `calcLandAllocation` with parent allocation `a`, the
stored land allocation at `p` is `a * share[p]` when `0 < a` and `0` when
`a ≤ 0`; in particular for any nonnegative parent allocation it equals the
product `a * share[p]` exactly. -/
theorem calcLandAllocation_product_share (s : LandLeaf) (mkt : Marketplace)
    (a : ℚ) (p : ℕ) :
    (0 < a → (s.calcLandAllocation mkt a p).2.mLandAllocation p = a * s.mShare p) ∧
    (a ≤ 0 → (s.calcLandAllocation mkt a p).2.mLandAllocation p = 0) ∧
    (0 ≤ a → s.mShare p = 0 ∨ 0 < a →
      (s.calcLandAllocation mkt a p).2.mLandAllocation p = a * s.mShare p) := by
  have halloc : (s.calcLandAllocation mkt a p).2.mLandAllocation p =
      if 0 < a then a * s.mShare p else 0 := by
    by_cases h : 0 < a <;>
      by_cases h2 : s.mIsLandExpansionCost <;>
        simp [LandLeaf.calcLandAllocation, Marketplace.addToDemand, h, h2]
  refine ⟨fun h => ?_, fun h => ?_, fun _ h => ?_⟩
  · rw [halloc, if_pos h]
  · rw [halloc, if_neg (not_lt.mpr h)]
  · rcases h with h | h
    · rw [halloc, h]
      by_cases hpos : 0 < a <;> simp [hpos]
    · rw [halloc, if_pos h]

/-- Witness for C6 at a concrete leaf, parent allocation 8 and share 1/2. -/
theorem calcLandAllocation_product_share_witness :
    (baseLeaf.calcLandAllocation mktNoCarbon 8 1).2.mLandAllocation 1 =
      8 * baseLeaf.mShare 1 :=
  (calcLandAllocation_product_share baseLeaf mktNoCarbon 8 1).1 (by norm_num)

/-- Claim C8: when the `CO2_LUC` market has no price (the `NO_MARKET_PRICE`
sentinel, `Option.none` here) or has a nonpositive price, `getCarbonSubsidy`
returns exactly 0 regardless of the carbon densities. -/
theorem getCarbonSubsidy_zero_without_positive_price (s : LandLeaf)
    (mkt : Marketplace) (cc : ICarbonCalc) (mt : Modeltime) (p : ℕ) :
    (mkt.getPriceOpt "CO2_LUC" p = Option.none →
      s.getCarbonSubsidy mkt cc mt p = 0) ∧
    (∀ cp : ℚ, mkt.getPriceOpt "CO2_LUC" p = Option.some cp → cp ≤ 0 →
      s.getCarbonSubsidy mkt cc mt p = 0) := by
  constructor
  · intro h
    simp [LandLeaf.getCarbonSubsidy, h]
  · intro cp h hcp
    simp [LandLeaf.getCarbonSubsidy, h, not_lt.mpr hcp]

/-- Witness for C8: no carbon market at all yields subsidy exactly 0. -/
theorem getCarbonSubsidy_zero_witness :
    baseLeaf.getCarbonSubsidy mktNoCarbon sampleCarbonCalc sampleModeltime 2 = 0 :=
  (getCarbonSubsidy_zero_without_positive_price baseLeaf mktNoCarbon
    sampleCarbonCalc sampleModeltime 2).1 rfl

/-- Claim C4: for every period `p > 1`, `initCalc` copies the previous
period's profit scaler when `profitScaler[p]` is the sentinel -1 and copies
the previous period's share when `share[p]` is the sentinel -1; if after
these rules the profit scaler is still -1, the run terminates fatally. -/
theorem initCalc_copy_forward_and_fatal (s : LandLeaf) (p : ℕ) (hp : 1 < p) :
    ((if s.mProfitScaler p = -1 then s.mProfitScaler (p - 1)
      else s.mProfitScaler p) = -1 →
      s.initCalc p = Except.error "Negative share weight") ∧
    ((if s.mProfitScaler p = -1 then s.mProfitScaler (p - 1)
      else s.mProfitScaler p) ≠ -1 →
      ∃ s', s.initCalc p = Except.ok s' ∧
        s'.mProfitScaler p =
          (if s.mProfitScaler p = -1 then s.mProfitScaler (p - 1)
           else s.mProfitScaler p) ∧
        s'.mShare p =
          (if s.mShare p = -1 then s.mShare (p - 1) else s.mShare p)) := by
  have hnewsc : (if 1 < p ∧ s.mProfitScaler p = -1 then
      Function.update s.mProfitScaler p (s.mProfitScaler (p - 1))
    else s.mProfitScaler) p =
      (if s.mProfitScaler p = -1 then s.mProfitScaler (p - 1)
       else s.mProfitScaler p) := by
    by_cases hsc : s.mProfitScaler p = -1 <;> simp [hp, hsc, Function.update_same]
  have hnewsh : (if 1 < p ∧ s.mShare p = -1 then
      Function.update s.mShare p (s.mShare (p - 1))
    else s.mShare) p =
      (if s.mShare p = -1 then s.mShare (p - 1) else s.mShare p) := by
    by_cases hsh : s.mShare p = -1 <;> simp [hp, hsh, Function.update_same]
  constructor
  · intro h
    simp only [LandLeaf.initCalc]
    rw [hnewsc, if_pos h]
  · intro h
    simp only [LandLeaf.initCalc]
    rw [hnewsc, if_neg h]
    exact ⟨_, rfl, hnewsc, hnewsh⟩

/-- Witness for C4: period 2 of `sentinelLeaf` copies scaler and share from
period 1 and does not hit the fatal branch. -/
theorem initCalc_copy_forward_witness :
    (if sentinelLeaf.mProfitScaler 2 = -1 then sentinelLeaf.mProfitScaler 1
     else sentinelLeaf.mProfitScaler 2) ≠ -1 ∧
    ∃ s', sentinelLeaf.initCalc 2 = Except.ok s' ∧
      s'.mProfitScaler 2 =
        (if sentinelLeaf.mProfitScaler 2 = -1 then sentinelLeaf.mProfitScaler 1
         else sentinelLeaf.mProfitScaler 2) ∧
      s'.mShare 2 =
        (if sentinelLeaf.mShare 2 = -1 then sentinelLeaf.mShare 1
         else sentinelLeaf.mShare 2) :=
  ⟨by norm_num [sentinelLeaf, baseLeaf],
   (initCalc_copy_forward_and_fatal sentinelLeaf 2 (by norm_num)).2
     (by norm_num [sentinelLeaf, baseLeaf])⟩

/-- Claim C5: `setProfitRate` stores
`max(rawProfitRate - expansionCost + carbonSubsidy, 0)` at the given period
(the expansion cost is subtracted only for leaves flagged with a
land-expansion-cost market), hence the stored profit rate is nonnegative and
other periods are untouched; no other leaf operation writes the profit rate
at all. -/
theorem setProfitRate_stores_floored_profit (s : LandLeaf) (mkt : Marketplace)
    (cc : ICarbonCalc) (mt : Modeltime) (dc : IDiscreteChoice) (pcp : ℕ → ℚ)
    (r a : ℚ) (endY yEnd : ℤ) (p : ℕ) :
    ((s.setProfitRate mkt cc mt r p).mProfitRate p =
      max (r - (if s.mIsLandExpansionCost then
            mkt.getPriceMust s.mLandExpansionCostName p else 0)
          + s.getCarbonSubsidy mkt cc mt p) 0) ∧
    (0 ≤ (s.setProfitRate mkt cc mt r p).mProfitRate p) ∧
    (∀ q, q ≠ p → (s.setProfitRate mkt cc mt r p).mProfitRate q = s.mProfitRate q) ∧
    ((s.calcLandShares dc p).2.mProfitRate = s.mProfitRate) ∧
    ((s.calcLandAllocation mkt a p).2.mProfitRate = s.mProfitRate) ∧
    ((s.calcLUCEmissions cc mt endY mkt p yEnd).2.mProfitRate = s.mProfitRate) ∧
    ((s.calculateProfitScalers dc mt pcp p).1.mProfitRate = s.mProfitRate) ∧
    (∀ s', s.initCalc p = Except.ok s' → s'.mProfitRate = s.mProfitRate) := by
  refine ⟨?_, ?_, ?_, rfl, ?_, ?_, ?_, ?_⟩
  · by_cases h : s.mIsLandExpansionCost <;>
      simp [LandLeaf.setProfitRate, h, Function.update_same, sub_zero]
  · by_cases h : s.mIsLandExpansionCost <;>
      simp [LandLeaf.setProfitRate, h, Function.update_same, le_max_right]
  · intro q hq
    simp [LandLeaf.setProfitRate, Function.update_noteq hq]
  · simp only [LandLeaf.calcLandAllocation]
    split <;> rfl
  · simp only [LandLeaf.calcLUCEmissions]
    split <;> rfl
  · simp only [LandLeaf.calculateProfitScalers]
    repeat' split
    all_goals rfl
  · intro s' h
    simp only [LandLeaf.initCalc] at h
    by_cases hc : (if 1 < p ∧ s.mProfitScaler p = -1 then
        Function.update s.mProfitScaler p (s.mProfitScaler (p - 1))
      else s.mProfitScaler) p = -1
    · rw [if_pos hc] at h
      exact absurd h (by simp)
    · rw [if_neg hc] at h
      cases h
      rfl

/-- Witness for C5 at a concrete leaf without an expansion-cost market. -/
theorem setProfitRate_stores_floored_profit_witness :
    0 ≤ (baseLeaf.setProfitRate mktNoCarbon sampleCarbonCalc sampleModeltime 7 1).mProfitRate 1 ∧
    (3 : ℕ) ≠ 1 ∧
    (baseLeaf.setProfitRate mktNoCarbon sampleCarbonCalc sampleModeltime 7 1).mProfitRate 3 =
      baseLeaf.mProfitRate 3 :=
  ⟨(setProfitRate_stores_floored_profit baseLeaf mktNoCarbon sampleCarbonCalc
      sampleModeltime sampleChoice (fun _ => 0) 7 2 2100 2050 1).2.1,
   by norm_num,
   (setProfitRate_stores_floored_profit baseLeaf mktNoCarbon sampleCarbonCalc
      sampleModeltime sampleChoice (fun _ => 0) 7 2 2100 2050 1).2.2.1 3
     (by norm_num)⟩

/-- Claim C7: for a non-entrant leaf, `calculateProfitScalers` sets the
scaler to 0 (for every choice function, hence without consulting its
inverse) when the calibration profit rate or the profit rate is 0;
otherwise it sets the scaler to `calcShareWeight(share, profitRate, p)`,
and a negative result is clamped to 0 with the logged warning (the boolean
component), never a fatal error. -/
theorem calculateProfitScalers_degenerate_and_clamp
    (s : LandLeaf) (dc : IDiscreteChoice) (mt : Modeltime) (pcp : ℕ → ℚ) (p : ℕ)
    (hNT : s.mIsNewTech = false) :
    ((s.mCalibrationProfitRate p = 0 ∨ s.mProfitRate p = 0) →
      ((s.calculateProfitScalers dc mt pcp p).1.mProfitScaler p = 0 ∧
       (s.calculateProfitScalers dc mt pcp p).2 = false)) ∧
    (s.mCalibrationProfitRate p ≠ 0 → s.mProfitRate p ≠ 0 →
      ((dc.calcShareWeight (s.mShare p) (s.mProfitRate p) p < 0 →
         (s.calculateProfitScalers dc mt pcp p).1.mProfitScaler p = 0 ∧
         (s.calculateProfitScalers dc mt pcp p).2 = true) ∧
       (0 ≤ dc.calcShareWeight (s.mShare p) (s.mProfitRate p) p →
         (s.calculateProfitScalers dc mt pcp p).1.mProfitScaler p =
           dc.calcShareWeight (s.mShare p) (s.mProfitRate p) p ∧
         (s.calculateProfitScalers dc mt pcp p).2 = false))) := by
  constructor
  · rintro (h | h) <;>
      simp [LandLeaf.calculateProfitScalers, hNT, h, Function.update_same]
  · intro h1 h2
    constructor
    · intro hw
      simp [LandLeaf.calculateProfitScalers, hNT, h1, h2, Function.update_same, hw]
    · intro hw
      simp [LandLeaf.calculateProfitScalers, hNT, h1, h2, Function.update_same,
        not_lt.mpr hw]

/-- Witness for C7: `baseLeaf` has nonzero calibration and observed profit
and a nonnegative inverted scaler, which is stored without a warning. -/
theorem calculateProfitScalers_degenerate_and_clamp_witness :
    (baseLeaf.calculateProfitScalers sampleChoice sampleModeltime (fun _ => 0) 2).1.mProfitScaler 2 =
      sampleChoice.calcShareWeight (baseLeaf.mShare 2) (baseLeaf.mProfitRate 2) 2 ∧
    (baseLeaf.calculateProfitScalers sampleChoice sampleModeltime (fun _ => 0) 2).2 = false :=
  ((calculateProfitScalers_degenerate_and_clamp baseLeaf sampleChoice sampleModeltime
      (fun _ => 0) 2 rfl).2 (by norm_num [baseLeaf]) (by norm_num [baseLeaf])).2
    (by norm_num [sampleChoice, baseLeaf])

/-- Claim C9: trial-evaluation operations never mutate calibration state:
`calcLandShares` returns its weight with the leaf state unchanged, and none
of `setProfitRate`, `calcLandShares`, `calcLandAllocation` or
`calcLUCEmissions` writes the profit scaler or the share. -/
theorem trial_evaluation_preserves_calibration_state
    (s : LandLeaf) (dc : IDiscreteChoice) (mkt : Marketplace) (cc : ICarbonCalc)
    (mt : Modeltime) (r a : ℚ) (endY yEnd : ℤ) (p : ℕ) :
    ((s.calcLandShares dc p).2 = s) ∧
    ((s.setProfitRate mkt cc mt r p).mProfitScaler = s.mProfitScaler) ∧
    ((s.setProfitRate mkt cc mt r p).mShare = s.mShare) ∧
    ((s.calcLandAllocation mkt a p).2.mProfitScaler = s.mProfitScaler) ∧
    ((s.calcLandAllocation mkt a p).2.mShare = s.mShare) ∧
    ((s.calcLUCEmissions cc mt endY mkt p yEnd).2.mProfitScaler = s.mProfitScaler) ∧
    ((s.calcLUCEmissions cc mt endY mkt p yEnd).2.mShare = s.mShare) := by
  refine ⟨rfl, rfl, rfl, ?_, ?_, ?_, ?_⟩ <;>
    first
    | (simp only [LandLeaf.calcLandAllocation]; split <;> rfl)
    | (simp only [LandLeaf.calcLUCEmissions]; split <;> rfl)

/-- Claim C1 counterexample: with end year 2100, six periods, period 0 and
evaluation horizon 2050, the horizon neither equals the end year nor is the
period the last one, yet `calcLUCEmissions` does submit to the `CO2_LUC`
market (its running demand changes), so the claim that submission happens
only when the horizon equals the end year or the period is the last period
is false on the code. -/
theorem calcLUCEmissions_claimC1_counterexample :
    ¬((2050 : ℤ) = 2100 ∨ (0 : ℕ) = sampleModeltime.getmaxper - 1) ∧
    (baseLeaf.calcLUCEmissions sampleCarbonCalc sampleModeltime 2100
        mktCarbon10 0 2050).1.demand "CO2_LUC" 0 ≠
      mktCarbon10.demand "CO2_LUC" 0 := by
  refine ⟨by norm_num [sampleModeltime], ?_⟩
  norm_num [LandLeaf.calcLUCEmissions, Marketplace.addToDemand, baseLeaf,
    sampleCarbonCalc, sampleModeltime, mktCarbon10]

/-- Claim C1 (amended): `calcLUCEmissions` submits the net land-use-change
emission to the `CO2_LUC` market exactly when the target horizon differs
from the carbon model's end year or the period is the model's last period;
when the horizon equals the end year and the period is not the last one it
performs no market submission and leaves the leaf untouched. -/
theorem calcLUCEmissions_submission_guard (s : LandLeaf) (cc : ICarbonCalc)
    (mt : Modeltime) (endY : ℤ) (mkt : Marketplace) (p : ℕ) (yEnd : ℤ) :
    (¬(yEnd ≠ endY ∨ p = mt.getmaxper - 1) →
      s.calcLUCEmissions cc mt endY mkt p yEnd = (mkt, s)) ∧
    ((yEnd ≠ endY ∨ p = mt.getmaxper - 1) →
      (s.calcLUCEmissions cc mt endY mkt p yEnd).1.demand "CO2_LUC" p =
        mkt.demand "CO2_LUC" p +
          (cc.calcThenGetNetLandUseChangeEmission p yEnd (mt.getper_to_yr p) -
            s.mLastCalcCO2Value) ∧
      (s.calcLUCEmissions cc mt endY mkt p yEnd).2.mLastCalcCO2Value =
        cc.calcThenGetNetLandUseChangeEmission p yEnd (mt.getper_to_yr p)) := by
  constructor
  · intro h
    simp [LandLeaf.calcLUCEmissions, h]
  · intro h
    simp [LandLeaf.calcLUCEmissions, h, Marketplace.addToDemand]

/-- Witness for the amended C1 at a submitting configuration. -/
theorem calcLUCEmissions_submission_guard_witness :
    ((2050 : ℤ) ≠ 2100 ∨ (0 : ℕ) = sampleModeltime.getmaxper - 1) ∧
    ((baseLeaf.calcLUCEmissions sampleCarbonCalc sampleModeltime 2100
        mktCarbon10 0 2050).1.demand "CO2_LUC" 0 =
      mktCarbon10.demand "CO2_LUC" 0 +
        (sampleCarbonCalc.calcThenGetNetLandUseChangeEmission 0 2050
            (sampleModeltime.getper_to_yr 0) -
          baseLeaf.mLastCalcCO2Value) ∧
    (baseLeaf.calcLUCEmissions sampleCarbonCalc sampleModeltime 2100
        mktCarbon10 0 2050).2.mLastCalcCO2Value =
      sampleCarbonCalc.calcThenGetNetLandUseChangeEmission 0 2050
        (sampleModeltime.getper_to_yr 0)) :=
  ⟨Or.inl (by norm_num),
   (calcLUCEmissions_submission_guard baseLeaf sampleCarbonCalc sampleModeltime
      2100 mktCarbon10 0 2050).2 (Or.inl (by norm_num))⟩

/-- Claim C10: when a positive `CO2_LUC` price exists, the actual densities
are at least the configured minima, the carbon calculator's subsidy discount
factors are nonnegative (their contract), and the social discount rate is at
least the period's carbon-price increase rate, the computed carbon subsidy
is nonnegative — the internal assertion holds; and without those hypotheses
the computed subsidy can be negative and is returned unclamped, as the
second conjunct shows at a concrete input. -/
theorem getCarbonSubsidy_nonneg_under_contract :
    (∀ (s : LandLeaf) (mkt : Marketplace) (cc : ICarbonCalc) (mt : Modeltime)
      (p : ℕ) (cp : ℚ),
      mkt.getPriceOpt "CO2_LUC" p = Option.some cp → 0 < cp →
      s.mMinAboveGroundCDensity ≤
        cc.getActualAboveGroundCarbonDensity (mt.getper_to_yr p) →
      s.mMinBelowGroundCDensity ≤
        cc.getActualBelowGroundCarbonDensity (mt.getper_to_yr p) →
      0 ≤ cc.getAboveGroundCarbonSubsidyDiscountFactor →
      0 ≤ cc.getBelowGroundCarbonSubsidyDiscountFactor →
      s.mCarbonPriceIncreaseRate p ≤ s.mSocialDiscountRate →
      0 ≤ s.getCarbonSubsidy mkt cc mt p) ∧
    belowMinLeaf.getCarbonSubsidy mktCarbon10 sampleCarbonCalc sampleModeltime 0 < 0 := by
  constructor
  · intro s mkt cc mt p cp hcp hpos hA hB hdfA hdfB hrate
    simp only [LandLeaf.getCarbonSubsidy, hcp, if_pos hpos]
    have h1 : 0 ≤ cc.getActualAboveGroundCarbonDensity (mt.getper_to_yr p) -
        s.mMinAboveGroundCDensity := by linarith
    have h2 : 0 ≤ cc.getActualBelowGroundCarbonDensity (mt.getper_to_yr p) -
        s.mMinBelowGroundCDensity := by linarith
    have hsum : 0 ≤ (cc.getActualAboveGroundCarbonDensity (mt.getper_to_yr p) -
          s.mMinAboveGroundCDensity) * cc.getAboveGroundCarbonSubsidyDiscountFactor
        + (cc.getActualBelowGroundCarbonDensity (mt.getper_to_yr p) -
          s.mMinBelowGroundCDensity) * cc.getBelowGroundCarbonSubsidyDiscountFactor :=
      add_nonneg (mul_nonneg h1 hdfA) (mul_nonneg h2 hdfB)
    have hprice : 0 ≤ cp / dollarConversion7590 :=
      div_nonneg (le_of_lt hpos) (by norm_num [dollarConversion7590])
    have hgap : 0 ≤ s.mSocialDiscountRate - s.mCarbonPriceIncreaseRate p := by
      linarith
    have hconv : (0 : ℚ) ≤ 1000000 := by norm_num
    exact mul_nonneg (mul_nonneg (mul_nonneg hsum hprice) hgap) hconv
  · norm_num [LandLeaf.getCarbonSubsidy, belowMinLeaf, baseLeaf, mktCarbon10,
      sampleCarbonCalc, sampleModeltime, dollarConversion7590]

/-- Witness for C10 at a concrete configuration satisfying every
hypothesis of the nonnegativity part. -/
theorem getCarbonSubsidy_nonneg_witness :
    0 ≤ baseLeaf.getCarbonSubsidy mktCarbon10 sampleCarbonCalc sampleModeltime 1 :=
  getCarbonSubsidy_nonneg_under_contract.1 baseLeaf mktCarbon10 sampleCarbonCalc
    sampleModeltime 1 10 rfl (by norm_num)
    (by norm_num [baseLeaf, sampleCarbonCalc])
    (by norm_num [baseLeaf, sampleCarbonCalc])
    (by norm_num [sampleCarbonCalc])
    (by norm_num [sampleCarbonCalc])
    (by norm_num [baseLeaf])

/-- On an entrant leaf, when the calibration period is not the entrant's
start period, `calculateProfitScalers` stores 0 at the calibration period
and the ghost-share inversion at the start period, with no clamp. -/
theorem calculateProfitScalers_newTech_fst (t : LandLeaf) (dc : IDiscreteChoice)
    (mt : Modeltime) (pcp : ℕ → ℚ) (p : ℕ)
    (hNT : t.mIsNewTech = true)
    (hne : p ≠ mt.getyr_to_per t.mNewTechStartYear) :
    (t.calculateProfitScalers dc mt pcp p).1 =
      { t with
        mCalibrationProfitRate := Function.update t.mCalibrationProfitRate p (pcp p),
        mProfitScaler := Function.update (Function.update t.mProfitScaler p 0)
          (mt.getyr_to_per t.mNewTechStartYear)
          (dc.calcShareWeight t.mGhostShareNumeratorForLeaf (pcp p) p) } := by
  have hcond : ¬(Function.update (Function.update t.mProfitScaler p 0)
      (mt.getyr_to_per t.mNewTechStartYear)
      (dc.calcShareWeight t.mGhostShareNumeratorForLeaf (pcp p) p) p < 0) := by
    rw [Function.update_noteq hne, Function.update_same]
    exact lt_irrefl 0
  simp only [LandLeaf.calculateProfitScalers, hNT, eq_self_iff_true, ite_true]
  rw [if_neg hcond]

/-- When the (possibly copied-forward) scaler at the period is not the -1
sentinel, `initCalc` succeeds and returns the leaf with the two
copy-forward rules applied. -/
theorem initCalc_ok_eq (t : LandLeaf) (p : ℕ)
    (h : (if 1 < p ∧ t.mProfitScaler p = -1 then
        Function.update t.mProfitScaler p (t.mProfitScaler (p - 1))
      else t.mProfitScaler) p ≠ -1) :
    t.initCalc p = Except.ok { t with
      mProfitScaler := if 1 < p ∧ t.mProfitScaler p = -1 then
          Function.update t.mProfitScaler p (t.mProfitScaler (p - 1))
        else t.mProfitScaler,
      mShare := if 1 < p ∧ t.mShare p = -1 then
          Function.update t.mShare p (t.mShare (p - 1))
        else t.mShare } := by
  simp only [LandLeaf.initCalc]
  rw [if_neg h]

/-- Invariant of the per-period driver run on an entrant leaf whose scaler
array starts at the -1 sentinel everywhere: every processed period before
the start period holds scaler 0, unprocessed periods other than the start
period still hold -1, processed periods beyond the start period hold the
final ghost inversion, and the start period holds the ghost inversion of
the most recent calibration period. -/
theorem runPeriods_newTech_inv (dc : IDiscreteChoice) (mt : Modeltime)
    (pcp : ℕ → ℚ) (s : LandLeaf) (finalCal sp : ℕ) (wfun : ℕ → ℚ)
    (hNT : s.mIsNewTech = true)
    (hInit : ∀ q, s.mProfitScaler q = -1)
    (h1 : 1 ≤ finalCal)
    (hsp : mt.getyr_to_per s.mNewTechStartYear = sp)
    (hwf : ∀ j, dc.calcShareWeight s.mGhostShareNumeratorForLeaf (pcp j) j = wfun j)
    (h2 : finalCal < sp)
    (hw : 0 < wfun finalCal) :
    ∀ k, ∃ sk, runPeriodsUpTo dc mt pcp finalCal s k = Except.ok sk ∧
      sk.mIsNewTech = true ∧
      sk.mGhostShareNumeratorForLeaf = s.mGhostShareNumeratorForLeaf ∧
      sk.mNewTechStartYear = s.mNewTechStartYear ∧
      (∀ q, q < k → q < sp → sk.mProfitScaler q = 0) ∧
      (∀ q, k ≤ q → q ≠ sp → sk.mProfitScaler q = -1) ∧
      (∀ q, sp < q → q < k → sk.mProfitScaler q = wfun finalCal) ∧
      (k = 0 → sk.mProfitScaler sp = -1) ∧
      (∀ j, k = j + 1 → sk.mProfitScaler sp = wfun (min j finalCal)) := by
  intro k
  induction k with
  | zero =>
    refine ⟨s, rfl, hNT, rfl, rfl, ?_, ?_, ?_, ?_, ?_⟩
    · intro q hq _
      exact absurd hq (Nat.not_lt_zero q)
    · intro q _ _
      exact hInit q
    · intro q _ hq
      exact absurd hq (Nat.not_lt_zero q)
    · intro _
      exact hInit sp
    · intro j hj
      exact absurd hj (by omega)
  | succ k ih =>
    obtain ⟨sk, hrun, hA, hB, hC, hD, hE, hF, hG0, hGS⟩ := ih
    have hstep : runPeriodsUpTo dc mt pcp finalCal s (k + 1) =
        calibThenInitStep dc mt pcp finalCal sk k := by
      simp only [runPeriodsUpTo]
      rw [hrun]
    have hspk : mt.getyr_to_per sk.mNewTechStartYear = sp := by rw [hC, hsp]
    by_cases hk : k ≤ finalCal
    · -- calibration period, strictly before the start period
      have hklt : k < sp := lt_of_le_of_lt hk h2
      have hkne : k ≠ mt.getyr_to_per sk.mNewTechStartYear := by
        rw [hspk]
        omega
      have hcal := calculateProfitScalers_newTech_fst sk dc mt pcp k hA hkne
      set T := (sk.calculateProfitScalers dc mt pcp k).1 with hTdef
      have hTsc : T.mProfitScaler =
          Function.update (Function.update sk.mProfitScaler k 0) sp (wfun k) := by
        rw [hcal]
        dsimp only
        rw [hspk, hB, hwf k]
      have hTA : T.mIsNewTech = true := by rw [hcal]; exact hA
      have hTB : T.mGhostShareNumeratorForLeaf = s.mGhostShareNumeratorForLeaf := by
        rw [hcal]; exact hB
      have hTC : T.mNewTechStartYear = s.mNewTechStartYear := by
        rw [hcal]; exact hC
      have hTk : T.mProfitScaler k = 0 := by
        rw [hTsc, Function.update_noteq (by omega : k ≠ sp), Function.update_same]
      have hcondF : ¬(1 < k ∧ T.mProfitScaler k = -1) := by
        rintro ⟨-, hbad⟩
        rw [hTk] at hbad
        norm_num at hbad
      have hinit := initCalc_ok_eq T k (by rw [if_neg hcondF, hTk]; norm_num)
      have hcc : calibThenInitStep dc mt pcp finalCal sk k = T.initCalc k := by
        simp only [calibThenInitStep]
        rw [if_pos hk, ← hTdef]
      have hrun1 := (hstep.trans hcc).trans hinit
      refine ⟨_, hrun1, ?_, ?_, ?_, ?_, ?_, ?_, ?_, ?_⟩
      · exact hTA
      · exact hTB
      · exact hTC
      · intro q hq hqsp
        dsimp only
        rw [if_neg hcondF, hTsc]
        rcases Nat.lt_succ_iff_lt_or_eq.mp hq with hq' | hq'
        · rw [Function.update_noteq (by omega : q ≠ sp),
            Function.update_noteq (by omega : q ≠ k)]
          exact hD q hq' hqsp
        · subst hq'
          rw [Function.update_noteq (by omega : q ≠ sp), Function.update_same]
      · intro q hq hqsp
        dsimp only
        rw [if_neg hcondF, hTsc, Function.update_noteq hqsp,
          Function.update_noteq (by omega : q ≠ k)]
        exact hE q (by omega) hqsp
      · intro q hq1 hq2
        exact absurd hq1 (by omega)
      · intro hbad
        exact absurd hbad (by omega)
      · intro j hj
        have hjk : j = k := by omega
        subst hjk
        dsimp only
        rw [if_neg hcondF, hTsc, Function.update_same, min_eq_left hk]
    · -- past the calibration periods: only initCalc runs
      have hstep2 : runPeriodsUpTo dc mt pcp finalCal s (k + 1) = sk.initCalc k := by
        rw [hstep]
        simp only [calibThenInitStep]
        rw [if_neg hk]
      rcases lt_trichotomy k sp with hlt | heq | hgt
      · -- between the last calibration period and the start period
        have hskk : sk.mProfitScaler k = -1 := hE k le_rfl (by omega)
        have hcondT : 1 < k ∧ sk.mProfitScaler k = -1 := ⟨by omega, hskk⟩
        have hprev : sk.mProfitScaler (k - 1) = 0 := hD (k - 1) (by omega) (by omega)
        have hinit := initCalc_ok_eq sk k (by
          rw [if_pos hcondT, Function.update_same, hprev]
          norm_num)
        have hrun1 := hstep2.trans hinit
        refine ⟨_, hrun1, ?_, ?_, ?_, ?_, ?_, ?_, ?_, ?_⟩
        · exact hA
        · exact hB
        · exact hC
        · intro q hq hqsp
          dsimp only
          rw [if_pos hcondT]
          rcases Nat.lt_succ_iff_lt_or_eq.mp hq with hq' | hq'
          · rw [Function.update_noteq (by omega : q ≠ k)]
            exact hD q hq' hqsp
          · subst hq'
            rw [Function.update_same]
            exact hprev
        · intro q hq hqsp
          dsimp only
          rw [if_pos hcondT, Function.update_noteq (by omega : q ≠ k)]
          exact hE q (by omega) hqsp
        · intro q hq1 hq2
          exact absurd hq1 (by omega)
        · intro hbad
          exact absurd hbad (by omega)
        · intro j hj
          have hjk : k = j := by omega
          subst hjk
          dsimp only
          rw [if_pos hcondT, Function.update_noteq (by omega : sp ≠ k)]
          have h' := hGS (k - 1) (by omega)
          rw [h', min_eq_right (by omega : finalCal ≤ k - 1),
            min_eq_right (by omega : finalCal ≤ k)]
      · -- exactly the start period: the stored ghost inversion survives
        have hsks : sk.mProfitScaler k = wfun finalCal := by
          have h' := hGS (k - 1) (by omega)
          rw [heq, h', min_eq_right (by omega : finalCal ≤ k - 1)]
        have hcondF : ¬(1 < k ∧ sk.mProfitScaler k = -1) := by
          rintro ⟨-, hbad⟩
          rw [hsks] at hbad
          rw [hbad] at hw
          norm_num at hw
        have hinit := initCalc_ok_eq sk k (by
          rw [if_neg hcondF, hsks]
          intro hbad
          rw [hbad] at hw
          norm_num at hw)
        have hrun1 := hstep2.trans hinit
        refine ⟨_, hrun1, ?_, ?_, ?_, ?_, ?_, ?_, ?_, ?_⟩
        · exact hA
        · exact hB
        · exact hC
        · intro q hq hqsp
          dsimp only
          rw [if_neg hcondF]
          exact hD q (by omega) hqsp
        · intro q hq hqsp
          dsimp only
          rw [if_neg hcondF]
          exact hE q (by omega) hqsp
        · intro q hq1 hq2
          exact absurd hq1 (by omega)
        · intro hbad
          exact absurd hbad (by omega)
        · intro j hj
          have hjk : k = j := by omega
          subst hjk
          dsimp only
          rw [if_neg hcondF, ← heq, hsks, min_eq_right (by omega : finalCal ≤ k)]
      · -- past the start period: copy the ghost inversion forward
        have hskk : sk.mProfitScaler k = -1 := hE k le_rfl (by omega)
        have hcondT : 1 < k ∧ sk.mProfitScaler k = -1 := ⟨by omega, hskk⟩
        have hprev : sk.mProfitScaler (k - 1) = wfun finalCal := by
          rcases Nat.lt_or_ge sp (k - 1) with hc | hc
          · exact hF (k - 1) hc (by omega)
          · have hceq : k - 1 = sp := by omega
            have h' := hGS (k - 1) (by omega)
            rw [hceq, h', min_eq_right (by omega : finalCal ≤ k - 1)]
        have hinit := initCalc_ok_eq sk k (by
          rw [if_pos hcondT, Function.update_same, hprev]
          intro hbad
          rw [hbad] at hw
          norm_num at hw)
        have hrun1 := hstep2.trans hinit
        refine ⟨_, hrun1, ?_, ?_, ?_, ?_, ?_, ?_, ?_, ?_⟩
        · exact hA
        · exact hB
        · exact hC
        · intro q hq hqsp
          dsimp only
          rw [if_pos hcondT, Function.update_noteq (by omega : q ≠ k)]
          exact hD q (by omega) hqsp
        · intro q hq hqsp
          dsimp only
          rw [if_pos hcondT, Function.update_noteq (by omega : q ≠ k)]
          exact hE q (by omega) hqsp
        · intro q hq1 hq2
          dsimp only
          rw [if_pos hcondT]
          rcases Nat.lt_succ_iff_lt_or_eq.mp hq2 with hq' | hq'
          · rw [Function.update_noteq (by omega : q ≠ k)]
            exact hF q hq1 hq'
          · subst hq'
            rw [Function.update_same]
            exact hprev
        · intro hbad
          exact absurd hbad (by omega)
        · intro j hj
          have hjk : k = j := by omega
          subst hjk
          dsimp only
          rw [if_pos hcondT, Function.update_noteq (by omega : sp ≠ k)]
          have h' := hGS (k - 1) (by omega)
          rw [h', min_eq_right (by omega : finalCal ≤ k - 1),
            min_eq_right (by omega : finalCal ≤ k)]

/-- Claim C3: for an entrant ("new technology") leaf whose scalers start at
the sentinel, after the full run (calibration passes followed by the
per-period `initCalc` forward projection) the profit scaler is exactly 0 in
every period strictly before the configured start period, and at the start
period it equals the ghost-share inversion
`calcShareWeight(ghostShare, parentCalibrationProfit, finalCalPeriod)` —
set from the distribution parameter, not from historical data — which is
nonzero under the stated positivity contract. -/
theorem newTech_scaler_zero_before_start_period (dc : IDiscreteChoice)
    (mt : Modeltime) (pcp : ℕ → ℚ) (s : LandLeaf) (finalCal : ℕ)
    (hNT : s.mIsNewTech = true)
    (hInit : ∀ q, s.mProfitScaler q = -1)
    (h1 : 1 ≤ finalCal)
    (h2 : finalCal < mt.getyr_to_per s.mNewTechStartYear)
    (h3 : mt.getyr_to_per s.mNewTechStartYear < mt.getmaxper)
    (hw : 0 < dc.calcShareWeight s.mGhostShareNumeratorForLeaf (pcp finalCal) finalCal) :
    ∃ s', runPeriodsUpTo dc mt pcp finalCal s mt.getmaxper = Except.ok s' ∧
      (∀ q, q < mt.getyr_to_per s.mNewTechStartYear → s'.mProfitScaler q = 0) ∧
      s'.mProfitScaler (mt.getyr_to_per s.mNewTechStartYear) =
        dc.calcShareWeight s.mGhostShareNumeratorForLeaf (pcp finalCal) finalCal ∧
      s'.mProfitScaler (mt.getyr_to_per s.mNewTechStartYear) ≠ 0 := by
  obtain ⟨sf, hrun, -, -, -, hD, -, -, -, hGS⟩ :=
    runPeriods_newTech_inv dc mt pcp s finalCal
      (mt.getyr_to_per s.mNewTechStartYear)
      (fun j => dc.calcShareWeight s.mGhostShareNumeratorForLeaf (pcp j) j)
      hNT hInit h1 rfl (fun j => rfl) h2 hw mt.getmaxper
  have h' := hGS (mt.getmaxper - 1) (by omega)
  rw [min_eq_right (by omega : finalCal ≤ mt.getmaxper - 1)] at h'
  refine ⟨sf, hrun, ?_, ?_, ?_⟩
  · intro q hq
    exact hD q (by omega) hq
  · exact h'
  · rw [h']
    exact ne_of_gt hw

/-- Witness for C3: a concrete entrant leaf under `sampleModeltime` (start
period 4 of 6), final calibration period 2, with a positive ghost
inversion. -/
theorem newTech_scaler_zero_before_start_period_witness :
    (0 : ℚ) < sampleChoice.calcShareWeight newTechLeaf.mGhostShareNumeratorForLeaf
      ((fun _ => (1 : ℚ)) 2) 2 ∧
    ∃ s', runPeriodsUpTo sampleChoice sampleModeltime (fun _ => 1) 2 newTechLeaf
        sampleModeltime.getmaxper = Except.ok s' ∧
      (∀ q, q < sampleModeltime.getyr_to_per newTechLeaf.mNewTechStartYear →
        s'.mProfitScaler q = 0) ∧
      s'.mProfitScaler (sampleModeltime.getyr_to_per newTechLeaf.mNewTechStartYear) =
        sampleChoice.calcShareWeight newTechLeaf.mGhostShareNumeratorForLeaf
          ((fun _ => (1 : ℚ)) 2) 2 ∧
      s'.mProfitScaler (sampleModeltime.getyr_to_per newTechLeaf.mNewTechStartYear) ≠ 0 :=
  ⟨by norm_num [sampleChoice, newTechLeaf, baseLeaf],
   newTech_scaler_zero_before_start_period sampleChoice sampleModeltime (fun _ => 1)
     newTechLeaf 2 rfl (fun q => rfl) (by norm_num)
     (by norm_num [sampleModeltime, newTechLeaf, baseLeaf])
     (by norm_num [sampleModeltime])
     (by norm_num [sampleChoice, newTechLeaf, baseLeaf])⟩
